import Mathlib

/-!
Shallow embedding of the paginated extraction engine of
`nestjs-browser-parser` (`src/js-parser.service.ts`, pagination section,
together with the pagination types of `src/types/pagination.types.ts`).

Modelling choices:
* The browser/page surface is an external collaborator; every interaction the
  engine performs against it (`page.content` + `options.extractItems`,
  `performScroll`, `clickLoadMoreButton`, `navigateToNextPage`,
  `config.extractCursor`, `config.navigateWithCursor`, and the outcome of
  `getPage`) is modelled by an environment (`PageEnv`) giving the outcome of
  the n-th call of each kind, as an `Except String _` so that a thrown page
  interaction is representable everywhere.  The calls whose bodies the source
  wraps in their own try/catch and converts to a boolean (`performScroll`,
  `clickLoadMoreButton`, `navigateToNextPage`) are embedded as catch-wrapper
  functions that turn a throw into `false`; exceptions of the remaining calls
  (`extractItems`, `extractCursor`, `navigateWithCursor`, `getPage`)
  propagate to the controller.
* JavaScript exceptions are modelled by the `thrown` component of
  `ExecResult`: `some msg` means the executor threw with message `msg`,
  carrying the state/result mutated so far (the source mutates them in
  place, so the controller's catch block still observes them).
* `Date.now()` readings are modelled by `startTime`/`endClock` in the
  environment; JS float division for `averagePageTime` is modelled by `ℚ`.
* Event handlers (`onPageStart`, `onPageComplete`, `onItemsExtracted`,
  `onError`, `onComplete`) are pure observers in the source's intent and are
  modelled as no-ops; `delay`/wait calls are modelled as non-failing.
* The `while` loops are modelled with a fuel parameter; running out of fuel
  returns the state reached so far without an error.
-/

namespace BrowserParser

/-- `stopReason` enumeration of `PaginationResult` (pagination.types.ts). -/
inductive StopReason where
  | maxPages
  | maxItems
  | endReached
  | error
  | customCondition
deriving DecidableEq, Repr

/-- `PaginationState` (pagination.types.ts): internal tracking record. -/
structure PaginationState where
  currentPage : Nat
  totalItems : Nat
  errors : List String
  startTime : Nat
  lastCursor : Option String
  isLoading : Bool
deriving Repr

/-- The `metadata` component of `PaginationResult`. -/
structure PaginationMetadata where
  startTime : Nat
  endTime : Nat
  averagePageTime : ℚ
  lastCursor : Option String
deriving Repr

/-- `PaginationResult<T>` (pagination.types.ts). -/
structure PaginationResult (T : Type) where
  items : List T
  pagesProcessed : Nat
  totalTime : Nat
  completed : Bool
  stopReason : StopReason
  errors : List String
  metadata : PaginationMetadata
deriving Repr

/-- Common fields of `PaginationConfig` (pagination.types.ts).  The
`stopCondition` callback is declared in the source but never invoked by the
engine; it is modelled against the accumulated items and the page number. -/
structure CommonConfig (T : Type) where
  maxPages : Option Nat
  maxItems : Option Nat
  delay : Option Nat
  verbose : Bool
  stopCondition : Option (List T → Nat → Bool)

/-- The strategy tagged union (`PaginationOptions`).  Each variant carries the
common config plus the strategy-specific fields the engine's control flow
actually reads (`scrollOptions.maxScrolls` for infinite scroll,
`initialCursor` for cursor-based pagination; the selectors and waits live
behind the environment). -/
inductive PagStrategy (T : Type) where
  | infiniteScroll (cfg : CommonConfig T) (maxScrolls : Option Nat)
  | loadMoreButton (cfg : CommonConfig T)
  | numberedPagination (cfg : CommonConfig T)
  | cursorBased (cfg : CommonConfig T) (initialCursor : Option String)
  | timeBased (cfg : CommonConfig T)
  | hybrid (cfg : CommonConfig T) (primary fallback : PagStrategy T)

/-- Dedup-related fields of `PaginatedExtractionOptions`. -/
structure ExtractOptions (T : Type) where
  isDuplicate : Option (T → List T → Bool)
  includeDuplicates : Bool

/-- Environment: outcome of the n-th interaction of each kind with the live
page, plus the outcome of `getPage` and the clock readings.  For the three
actions whose bodies the source wraps in their own try/catch
(`performScroll`, `clickLoadMoreButton`, `navigateToNextPage`),
`Except.ok b` is the body running to completion with return value `b` and
`Except.error msg` is the body throwing — the catch-wrapper defs below turn
either into the `Bool` the executors consume. -/
structure PageEnv (T : Type) where
  openResult : Except String Unit
  startTime : Nat
  endClock : Nat
  extractAt : Nat → Except String (List T)
  scrollAt : Nat → Except String Bool
  clickAt : Nat → Except String Bool
  navigateAt : Nat → Except String Bool
  extractCursorAt : Nat → Except String (Option String)
  navigateCursorAt : Nat → Except String Unit

/-- Counts of interactions performed so far, indexing into `PageEnv`. -/
structure Counters where
  extracts : Nat
  scrolls : Nat
  clicks : Nat
  navigates : Nat
  cursorExtracts : Nat
  cursorNavigates : Nat
deriving Repr

/-- Outcome of one executor: the counters/state/result after it returned or
threw; `thrown = some msg` models a JavaScript exception with message `msg`
propagating out of the executor. -/
structure ExecResult (T : Type) where
  counters : Counters
  state : PaginationState
  result : PaginationResult T
  thrown : Option String

/-- JS truthiness test used by `shouldContinuePagination`
(`config.maxPages && state.currentPage >= config.maxPages`): an absent cap
and a zero cap are both falsy; otherwise compare `m ≤ n`. -/
def natCapReached (cap : Option Nat) (n : Nat) : Bool :=
  match cap with
  | none => false
  | some m => m != 0 && decide (m ≤ n)

/-- JS truthiness of the cursor returned by `extractCursor`
(`if (!nextCursor)`): `null` and the empty string are falsy. -/
def cursorTruthy : Option String → Bool
  | none => false
  | some s => s != ""

/-- `performScroll` (lines 980-1061): the whole body sits in a try/catch
whose catch logs and returns `false` (lines 1055-1060), so a thrown page
interaction never escapes — it reads as a failed scroll. -/
def performScroll (attempt : Except String Bool) : Bool :=
  match attempt with
  | Except.ok b => b
  | Except.error _ => false

/-- `clickLoadMoreButton` (lines 1066-1087): each selector's
visibility/click attempt is wrapped in try/catch (lines 1081-1083) and a
throw just moves on to the next selector; when nothing was clicked the
function returns `false`.  `attempt` summarises the n-th invocation:
a throw in the attempts never escapes — it reads as no button clicked. -/
def clickLoadMoreButton (attempt : Except String Bool) : Bool :=
  match attempt with
  | Except.ok b => b
  | Except.error _ => false

/-- `navigateToNextPage` (lines 1092-1110): the body sits in a try/catch
whose catch returns `false` (lines 1107-1109), so a thrown click or wait
reads as a failed navigation. -/
def navigateToNextPage (attempt : Except String Bool) : Bool :=
  match attempt with
  | Except.ok b => b
  | Except.error _ => false

/-- `shouldContinuePagination` (js-parser.service.ts lines 931-952).  Returns
the boolean verdict together with the (possibly updated) result, since the
source mutates `result.stopReason` when a cap fires.  The source's
`if (config.stopCondition)` block (lines 946-949) contains only a comment and
performs no action, so `stopCondition` is not consulted. -/
def shouldContinuePagination {T : Type} (config : CommonConfig T)
    (state : PaginationState) (result : PaginationResult T) :
    Bool × PaginationResult T :=
  if natCapReached config.maxPages state.currentPage then
    (false, { result with stopReason := StopReason.maxPages })
  else if natCapReached config.maxItems result.items.length then
    (false, { result with stopReason := StopReason.maxItems })
  else
    (true, result)

/-- The duplicate judgment of `processNewItems` (lines 964-966):
`options.isDuplicate ? options.isDuplicate(item, result.items) : false`. -/
def judgeDup {T : Type} (opts : ExtractOptions T) (item : T)
    (existing : List T) : Bool :=
  match opts.isDuplicate with
  | some p => p item existing
  | none => false

/-- One step of the loop body of `processNewItems`: test the candidate against
the accumulated list and append it unless it is a rejected duplicate. -/
def pushItem {T : Type} (opts : ExtractOptions T)
    (sr : PaginationState × PaginationResult T) (item : T) :
    PaginationState × PaginationResult T :=
  if !judgeDup opts item sr.2.items || opts.includeDuplicates then
    ({ sr.1 with totalItems := sr.1.totalItems + 1 },
     { sr.2 with items := sr.2.items ++ [item] })
  else sr

/-- `processNewItems` (lines 957-975): fold `pushItem` over the batch.  The
trailing `onItemsExtracted` notification is a no-op in the model. -/
def processNewItems {T : Type} (newItems : List T) (opts : ExtractOptions T)
    (state : PaginationState) (result : PaginationResult T) :
    PaginationState × PaginationResult T :=
  newItems.foldl (pushItem opts) (state, result)

/-- `state.currentPage++` at the end of each executor cycle. -/
def advanceState (s : PaginationState) : PaginationState :=
  { s with currentPage := s.currentPage + 1 }

/-- `result.pagesProcessed++` at the end of each executor cycle. -/
def advanceResult {T : Type} (r : PaginationResult T) : PaginationResult T :=
  { r with pagesProcessed := r.pagesProcessed + 1 }

/-- `performInfiniteScroll` (lines 682-756).  The loop-local variables are the
scroll-failure counter `sc` and `lastItemCount` `lic`. -/
def performInfiniteScroll {T : Type} (env : PageEnv T) (opts : ExtractOptions T)
    (cfg : CommonConfig T) (maxScrolls : Option Nat) :
    Nat → Nat → Nat → Counters → PaginationState → PaginationResult T →
    ExecResult T
  | 0, _, _, c, s, r => ⟨c, s, r, none⟩
  | Nat.succ fuel, sc, lic, c, s, r =>
    match shouldContinuePagination cfg s r with
    | (false, r₀) => ⟨c, s, r₀, none⟩
    | (true, r₀) =>
      match env.extractAt c.extracts with
      | Except.error msg => ⟨{ c with extracts := c.extracts + 1 }, s, r₀, some msg⟩
      | Except.ok newItems =>
        let c₁ : Counters := { c with extracts := c.extracts + 1 }
        let sr := processNewItems newItems opts s r₀
        let s₁ := sr.1
        let r₁ := sr.2
        if r₁.items.length == lic then
          let scrolled := performScroll (env.scrollAt c₁.scrolls)
          let c₂ : Counters := { c₁ with scrolls := c₁.scrolls + 1 }
          if !scrolled then
            ⟨c₂, s₁, { r₁ with stopReason := StopReason.endReached }, none⟩
          else if natCapReached maxScrolls (sc + 1) then
            ⟨c₂, s₁, { r₁ with stopReason := StopReason.endReached }, none⟩
          else
            performInfiniteScroll env opts cfg maxScrolls fuel (sc + 1) lic c₂
              (advanceState s₁) (advanceResult r₁)
        else
          performInfiniteScroll env opts cfg maxScrolls fuel 0 r₁.items.length c₁
            (advanceState s₁) (advanceResult r₁)

/-- The `while` loop of `performLoadMoreButton` (lines 774-804). -/
def loadMoreLoop {T : Type} (env : PageEnv T) (opts : ExtractOptions T)
    (cfg : CommonConfig T) :
    Nat → Counters → PaginationState → PaginationResult T → ExecResult T
  | 0, c, s, r => ⟨c, s, r, none⟩
  | Nat.succ fuel, c, s, r =>
    match shouldContinuePagination cfg s r with
    | (false, r₀) => ⟨c, s, r₀, none⟩
    | (true, r₀) =>
      let clicked := clickLoadMoreButton (env.clickAt c.clicks)
      let c₁ : Counters := { c with clicks := c.clicks + 1 }
      if !clicked then
        ⟨c₁, s, { r₀ with stopReason := StopReason.endReached }, none⟩
      else
        match env.extractAt c₁.extracts with
        | Except.error msg => ⟨{ c₁ with extracts := c₁.extracts + 1 }, s, r₀, some msg⟩
        | Except.ok newItems =>
          let c₂ : Counters := { c₁ with extracts := c₁.extracts + 1 }
          let sr := processNewItems newItems opts s r₀
          loadMoreLoop env opts cfg fuel c₂ (advanceState sr.1) (advanceResult sr.2)

/-- `performLoadMoreButton` (lines 761-805): one initial harvest, then the
click/harvest loop. -/
def performLoadMoreButton {T : Type} (env : PageEnv T) (opts : ExtractOptions T)
    (cfg : CommonConfig T) (fuel : Nat) (c : Counters) (s : PaginationState)
    (r : PaginationResult T) : ExecResult T :=
  match env.extractAt c.extracts with
  | Except.error msg => ⟨{ c with extracts := c.extracts + 1 }, s, r, some msg⟩
  | Except.ok newItems =>
    let c₁ : Counters := { c with extracts := c.extracts + 1 }
    let sr := processNewItems newItems opts s r
    loadMoreLoop env opts cfg fuel c₁ sr.1 sr.2

/-- `performNumberedPagination` (lines 810-838). -/
def performNumberedPagination {T : Type} (env : PageEnv T) (opts : ExtractOptions T)
    (cfg : CommonConfig T) :
    Nat → Counters → PaginationState → PaginationResult T → ExecResult T
  | 0, c, s, r => ⟨c, s, r, none⟩
  | Nat.succ fuel, c, s, r =>
    match shouldContinuePagination cfg s r with
    | (false, r₀) => ⟨c, s, r₀, none⟩
    | (true, r₀) =>
      match env.extractAt c.extracts with
      | Except.error msg => ⟨{ c with extracts := c.extracts + 1 }, s, r₀, some msg⟩
      | Except.ok newItems =>
        let c₁ : Counters := { c with extracts := c.extracts + 1 }
        let sr := processNewItems newItems opts s r₀
        let navigated := navigateToNextPage (env.navigateAt c₁.navigates)
        let c₂ : Counters := { c₁ with navigates := c₁.navigates + 1 }
        if !navigated then
          ⟨c₂, sr.1, { sr.2 with stopReason := StopReason.endReached }, none⟩
        else
          performNumberedPagination env opts cfg fuel c₂
            (advanceState sr.1) (advanceResult sr.2)

/-- `performCursorBasedPagination` (lines 843-880).  The loop variable
`cursor` mirrors the source's local (initialised from `initialCursor`,
overwritten by each extracted cursor, read only for the bookkeeping
assignments). -/
def cursorLoop {T : Type} (env : PageEnv T) (opts : ExtractOptions T)
    (cfg : CommonConfig T) :
    Nat → Option String → Counters → PaginationState → PaginationResult T →
    ExecResult T
  | 0, _, c, s, r => ⟨c, s, r, none⟩
  | Nat.succ fuel, _cursor, c, s, r =>
    match shouldContinuePagination cfg s r with
    | (false, r₀) => ⟨c, s, r₀, none⟩
    | (true, r₀) =>
      match env.extractAt c.extracts with
      | Except.error msg => ⟨{ c with extracts := c.extracts + 1 }, s, r₀, some msg⟩
      | Except.ok newItems =>
        let c₁ : Counters := { c with extracts := c.extracts + 1 }
        let sr := processNewItems newItems opts s r₀
        match env.extractCursorAt c₁.cursorExtracts with
        | Except.error msg =>
          ⟨{ c₁ with cursorExtracts := c₁.cursorExtracts + 1 }, sr.1, sr.2, some msg⟩
        | Except.ok nextCursor =>
          let c₂ : Counters := { c₁ with cursorExtracts := c₁.cursorExtracts + 1 }
          if !cursorTruthy nextCursor then
            ⟨c₂, sr.1, { sr.2 with stopReason := StopReason.endReached }, none⟩
          else
            let s₁ := { sr.1 with lastCursor := nextCursor }
            let r₁ := { sr.2 with metadata := { sr.2.metadata with lastCursor := nextCursor } }
            match env.navigateCursorAt c₂.cursorNavigates with
            | Except.error msg =>
              ⟨{ c₂ with cursorNavigates := c₂.cursorNavigates + 1 }, s₁, r₁, some msg⟩
            | Except.ok _ =>
              let c₃ : Counters := { c₂ with cursorNavigates := c₂.cursorNavigates + 1 }
              cursorLoop env opts cfg fuel nextCursor c₃
                (advanceState s₁) (advanceResult r₁)

/-- `performTimeBasedPagination` (lines 885-894): throws unconditionally. -/
def performTimeBasedPagination {T : Type} (c : Counters) (s : PaginationState)
    (r : PaginationResult T) : ExecResult T :=
  ⟨c, s, r, some "Time-based pagination not yet implemented"⟩

/-- `performPagination` (lines 647-677) together with
`performHybridPagination` (lines 899-926): dispatch on the strategy tag; the
hybrid executor runs the primary strategy and, if it threw, swallows that
error and re-dispatches to the fallback strategy over the same
state/result. -/
def performPagination {T : Type} (env : PageEnv T) (opts : ExtractOptions T)
    (fuel : Nat) :
    PagStrategy T → Counters → PaginationState → PaginationResult T →
    ExecResult T
  | PagStrategy.infiniteScroll cfg maxScrolls, c, s, r =>
    performInfiniteScroll env opts cfg maxScrolls fuel 0 0 c s r
  | PagStrategy.loadMoreButton cfg, c, s, r =>
    performLoadMoreButton env opts cfg fuel c s r
  | PagStrategy.numberedPagination cfg, c, s, r =>
    performNumberedPagination env opts cfg fuel c s r
  | PagStrategy.cursorBased cfg initialCursor, c, s, r =>
    cursorLoop env opts cfg fuel initialCursor c s r
  | PagStrategy.timeBased _, c, s, r =>
    performTimeBasedPagination c s r
  | PagStrategy.hybrid _ primary fallback, c, s, r =>
    let er := performPagination env opts fuel primary c s r
    match er.thrown with
    | some _ => performPagination env opts fuel fallback er.counters er.state er.result
    | none => er

/-- The `state` initialiser of `extractWithPagination` (lines 587-593). -/
def initialState (startTime : Nat) : PaginationState :=
  { currentPage := 0
    totalItems := 0
    errors := []
    startTime := startTime
    lastCursor := none
    isLoading := false }

/-- The `result` initialiser of `extractWithPagination` (lines 595-607). -/
def initialResult (T : Type) (startTime : Nat) : PaginationResult T :=
  { items := []
    pagesProcessed := 0
    totalTime := 0
    completed := false
    stopReason := StopReason.endReached
    errors := []
    metadata := { startTime := startTime
                  endTime := 0
                  averagePageTime := 0
                  lastCursor := none } }

/-- All interaction counters start at zero. -/
def counters0 : Counters := ⟨0, 0, 0, 0, 0, 0⟩

/-- What a run hands back: the value returned to the caller (`Except.error`
models the promise rejecting, i.e. an exception propagating out of
`extractWithPagination`), plus whether the `finally` block closed the page
and its context. -/
structure RunOutput (T : Type) where
  outcome : Except String (PaginationResult T)
  pageClosed : Bool
  contextClosed : Bool

/-- The success-path stamping of `extractWithPagination` (lines 617-622):
`completed := true`, `totalTime`, `metadata.endTime`,
`metadata.averagePageTime` (ternary on `pagesProcessed > 0`; JS float
division modelled by `ℚ`).  The two adjacent `Date.now()` reads are modelled
by the single `endClock`. -/
def stampSuccess {T : Type} (endClock startT : Nat) (r : PaginationResult T) :
    PaginationResult T :=
  let totalTime := endClock - startT
  { r with
    completed := true
    totalTime := totalTime
    metadata := { r.metadata with
      endTime := endClock
      averagePageTime :=
        if 0 < r.pagesProcessed then (totalTime : ℚ) / (r.pagesProcessed : ℚ)
        else 0 } }

/-- The catch-path bookkeeping of `extractWithPagination` (lines 627-637):
append the error message, set `stopReason := 'error'`, return the partial
result (no rethrow, no time stamping). -/
def stampFailure {T : Type} (msg : String) (r : PaginationResult T) :
    PaginationResult T :=
  { r with errors := r.errors ++ [msg], stopReason := StopReason.error }

/-- `extractWithPagination` (lines 581-642).  `getPage` is called before the
`try` block, so an open failure propagates to the caller and the `finally`
block (which closes the page and context) is never entered. -/
def extractWithPagination {T : Type} (env : PageEnv T) (fuel : Nat)
    (strategy : PagStrategy T) (opts : ExtractOptions T) : RunOutput T :=
  match env.openResult with
  | Except.error msg => ⟨Except.error msg, false, false⟩
  | Except.ok _ =>
    let er := performPagination env opts fuel strategy counters0
      (initialState env.startTime) (initialResult T env.startTime)
    match er.thrown with
    | none => ⟨Except.ok (stampSuccess env.endClock env.startTime er.result), true, true⟩
    | some msg => ⟨Except.ok (stampFailure msg er.result), true, true⟩

/-! ### Invariant machinery shared by the claims -/

/-- The list-shaped dedup predicate induced by a pairwise duplicate test `d`:
`isDuplicate(item, existingItems)` holds when some accumulated item is a
`d`-duplicate of the candidate. -/
def anyDup {T : Type} (d : T → T → Bool) : T → List T → Bool :=
  fun item existing => existing.any (fun b => d item b)

/-- Dedup soundness of an accumulated list: whenever the run's options carry
a pairwise-induced dedup predicate and `includeDuplicates = false`, no later
item of the list is a duplicate of an earlier one. -/
def DedupClause {T : Type} (opts : ExtractOptions T) (l : List T) : Prop :=
  ∀ d : T → T → Bool, opts.isDuplicate = some (anyDup d) →
    opts.includeDuplicates = false →
    l.Pairwise (fun a b => d b a = false)

/-- Invariant maintained by every executor between cycles: page counters in
lock-step, untouched time/completion fields, no `customCondition` stop, no
error recorded, the `maxPages` cap respected (against `mp`, the uniform cap
of the dispatched strategy), and dedup soundness of the accumulated items. -/
structure LoopInv {T : Type} (opts : ExtractOptions T) (mp : Option Nat)
    (s : PaginationState) (r : PaginationResult T) : Prop where
  pages_eq : r.pagesProcessed = s.currentPage
  total_time : r.totalTime = 0
  end_time : r.metadata.endTime = 0
  avg : r.metadata.averagePageTime = 0
  not_completed : r.completed = false
  stop : r.stopReason ≠ StopReason.customCondition
  errs : r.errors = []
  cap : ∀ m, mp = some m → m ≠ 0 → s.currentPage ≤ m
  dedup : DedupClause opts r.items

/-- The invariant holds at the start of every run. -/
theorem initial_LoopInv {T : Type} (opts : ExtractOptions T) (mp : Option Nat)
    (t : Nat) : LoopInv opts mp (initialState t) (initialResult T t) := by
  refine ⟨rfl, rfl, rfl, rfl, rfl, ?_, rfl, ?_, ?_⟩
  · intro hcontra; cases hcontra
  · intro m _ _; exact Nat.zero_le m
  · intro d _ _; exact List.Pairwise.nil

/-- If `shouldContinuePagination` answers `true` and the `maxPages` cap is
set to a nonzero value, the current page is strictly below the cap. -/
theorem shouldContinue_true_lt {T : Type} {config : CommonConfig T}
    {s : PaginationState} {r : PaginationResult T}
    (h : (shouldContinuePagination config s r).1 = true)
    {m : Nat} (hm : config.maxPages = some m) (hm0 : m ≠ 0) :
    s.currentPage < m := by
  unfold shouldContinuePagination at h
  by_cases h1 : natCapReached config.maxPages s.currentPage
  · simp [h1] at h
  · rw [hm] at h1
    unfold natCapReached at h1
    simp [hm0] at h1
    omega

/-- The result handed back by `shouldContinuePagination` satisfies the loop
invariant whenever its input did (the only mutation is a cap stop reason). -/
theorem LoopInv_shouldContinue {T : Type} {opts : ExtractOptions T}
    {mp : Option Nat} (config : CommonConfig T) {s : PaginationState}
    {r : PaginationResult T} (h : LoopInv opts mp s r) :
    LoopInv opts mp s (shouldContinuePagination config s r).2 := by
  unfold shouldContinuePagination
  split
  · exact ⟨h.pages_eq, h.total_time, h.end_time, h.avg, h.not_completed,
      (by intro hc; cases hc), h.errs, h.cap, h.dedup⟩
  · split
    · exact ⟨h.pages_eq, h.total_time, h.end_time, h.avg, h.not_completed,
        (by intro hc; cases hc), h.errs, h.cap, h.dedup⟩
    · exact h

/-- `pushItem` leaves every field but `items`/`totalItems` unchanged. -/
theorem pushItem_preserve {T : Type} (opts : ExtractOptions T)
    (sr : PaginationState × PaginationResult T) (x : T) :
    (pushItem opts sr x).1.currentPage = sr.1.currentPage ∧
    (pushItem opts sr x).2.pagesProcessed = sr.2.pagesProcessed ∧
    (pushItem opts sr x).2.totalTime = sr.2.totalTime ∧
    (pushItem opts sr x).2.metadata = sr.2.metadata ∧
    (pushItem opts sr x).2.completed = sr.2.completed ∧
    (pushItem opts sr x).2.stopReason = sr.2.stopReason ∧
    (pushItem opts sr x).2.errors = sr.2.errors := by
  unfold pushItem
  split <;> exact ⟨rfl, rfl, rfl, rfl, rfl, rfl, rfl⟩

/-- `pushItem` preserves dedup soundness: a candidate judged duplicate of the
accumulated list is dropped, so an appended item is never a duplicate of an
earlier one. -/
theorem pushItem_dedup {T : Type} (opts : ExtractOptions T)
    (sr : PaginationState × PaginationResult T) (x : T)
    (h : DedupClause opts sr.2.items) :
    DedupClause opts (pushItem opts sr x).2.items := by
  intro d hd hinc
  have hbase := h d hd hinc
  have hj : judgeDup opts x sr.2.items = anyDup d x sr.2.items := by
    unfold judgeDup; rw [hd]
  unfold pushItem
  rw [hinc, hj]
  cases hany : anyDup d x sr.2.items with
  | true =>
    show List.Pairwise (fun a b => d b a = false) sr.2.items
    exact hbase
  | false =>
    show List.Pairwise (fun a b => d b a = false) (sr.2.items ++ [x])
    rw [List.pairwise_append]
    refine ⟨hbase, List.pairwise_singleton _ _, ?_⟩
    intro a ha b hb
    rw [List.mem_singleton.mp hb]
    have hall : ∀ y ∈ sr.2.items, ¬((fun b => d x b) y = true) := by
      refine List.any_eq_false.mp ?_
      simpa [anyDup] using hany
    have := hall a ha
    simpa using this

/-- `processNewItems` leaves every field but `items`/`totalItems` unchanged. -/
theorem processNewItems_preserve {T : Type} (opts : ExtractOptions T)
    (xs : List T) : ∀ (s : PaginationState) (r : PaginationResult T),
    (processNewItems xs opts s r).1.currentPage = s.currentPage ∧
    (processNewItems xs opts s r).2.pagesProcessed = r.pagesProcessed ∧
    (processNewItems xs opts s r).2.totalTime = r.totalTime ∧
    (processNewItems xs opts s r).2.metadata = r.metadata ∧
    (processNewItems xs opts s r).2.completed = r.completed ∧
    (processNewItems xs opts s r).2.stopReason = r.stopReason ∧
    (processNewItems xs opts s r).2.errors = r.errors := by
  induction xs with
  | nil => intro s r; exact ⟨rfl, rfl, rfl, rfl, rfl, rfl, rfl⟩
  | cons x xs ih =>
    intro s r
    have hstep := pushItem_preserve opts (s, r) x
    have hrest := ih (pushItem opts (s, r) x).1 (pushItem opts (s, r) x).2
    have hunf : processNewItems (x :: xs) opts s r
        = processNewItems xs opts (pushItem opts (s, r) x).1
            (pushItem opts (s, r) x).2 := rfl
    rw [hunf]
    exact ⟨hrest.1.trans hstep.1, hrest.2.1.trans hstep.2.1,
      hrest.2.2.1.trans hstep.2.2.1, hrest.2.2.2.1.trans hstep.2.2.2.1,
      hrest.2.2.2.2.1.trans hstep.2.2.2.2.1,
      hrest.2.2.2.2.2.1.trans hstep.2.2.2.2.2.1,
      hrest.2.2.2.2.2.2.trans hstep.2.2.2.2.2.2⟩

/-- `processNewItems` preserves dedup soundness of the accumulated items. -/
theorem processNewItems_dedup {T : Type} (opts : ExtractOptions T)
    (xs : List T) : ∀ (s : PaginationState) (r : PaginationResult T),
    DedupClause opts r.items →
    DedupClause opts (processNewItems xs opts s r).2.items := by
  induction xs with
  | nil => intro s r h; exact h
  | cons x xs ih =>
    intro s r h
    have hunf : processNewItems (x :: xs) opts s r
        = processNewItems xs opts (pushItem opts (s, r) x).1
            (pushItem opts (s, r) x).2 := rfl
    rw [hunf]
    exact ih _ _ (pushItem_dedup opts (s, r) x h)

/-- `processNewItems` maintains the loop invariant. -/
theorem LoopInv_process {T : Type} {opts : ExtractOptions T} {mp : Option Nat}
    {s : PaginationState} {r : PaginationResult T} (xs : List T)
    (h : LoopInv opts mp s r) :
    LoopInv opts mp (processNewItems xs opts s r).1
      (processNewItems xs opts s r).2 := by
  have hp := processNewItems_preserve opts xs s r
  refine ⟨?_, ?_, ?_, ?_, ?_, ?_, ?_, ?_, ?_⟩
  · rw [hp.2.1, hp.1]; exact h.pages_eq
  · rw [hp.2.2.1]; exact h.total_time
  · rw [hp.2.2.2.1]; exact h.end_time
  · rw [hp.2.2.2.1]; exact h.avg
  · rw [hp.2.2.2.2.1]; exact h.not_completed
  · rw [hp.2.2.2.2.2.1]; exact h.stop
  · rw [hp.2.2.2.2.2.2]; exact h.errs
  · intro m hm hm0; rw [hp.1]; exact h.cap m hm hm0
  · exact processNewItems_dedup opts xs s r h.dedup

/-- Overwriting `stopReason` with anything but `customCondition` maintains
the loop invariant. -/
theorem LoopInv_setStop {T : Type} {opts : ExtractOptions T} {mp : Option Nat}
    {s : PaginationState} {r : PaginationResult T} (h : LoopInv opts mp s r)
    (sr : StopReason) (hsr : sr ≠ StopReason.customCondition) :
    LoopInv opts mp s { r with stopReason := sr } :=
  ⟨h.pages_eq, h.total_time, h.end_time, h.avg, h.not_completed, hsr, h.errs,
    h.cap, h.dedup⟩

/-- Recording a fresh cursor in the state and the result metadata maintains
the loop invariant. -/
theorem LoopInv_setCursor {T : Type} {opts : ExtractOptions T} {mp : Option Nat}
    {s : PaginationState} {r : PaginationResult T} (h : LoopInv opts mp s r)
    (cur : Option String) :
    LoopInv opts mp { s with lastCursor := cur }
      { r with metadata := { r.metadata with lastCursor := cur } } :=
  ⟨h.pages_eq, h.total_time, h.end_time, h.avg, h.not_completed, h.stop,
    h.errs, h.cap, h.dedup⟩

/-- The end-of-cycle `currentPage++` / `pagesProcessed++` pair maintains the
loop invariant, provided the cycle was entered below the cap. -/
theorem LoopInv_advance {T : Type} {opts : ExtractOptions T} {mp : Option Nat}
    {s : PaginationState} {r : PaginationResult T} (h : LoopInv opts mp s r)
    (hlt : ∀ m, mp = some m → m ≠ 0 → s.currentPage < m) :
    LoopInv opts mp (advanceState s) (advanceResult r) := by
  refine ⟨?_, h.total_time, h.end_time, h.avg, h.not_completed, h.stop,
    h.errs, ?_, h.dedup⟩
  · show r.pagesProcessed + 1 = s.currentPage + 1
    rw [h.pages_eq]
  · intro m hm hm0
    exact hlt m hm hm0

/-- The condition under which a cycle body may run implies the page counter
is strictly below a nonzero `maxPages` cap tied to `mp`. -/
theorem cycle_lt_cap {T : Type} {cfg : CommonConfig T} {mp : Option Nat}
    (hmp : mp = none ∨ cfg.maxPages = mp) {s : PaginationState}
    {r r₀ : PaginationResult T}
    (hsc : shouldContinuePagination cfg s r = (true, r₀)) :
    ∀ m, mp = some m → m ≠ 0 → s.currentPage < m := by
  intro m hm hm0
  rcases hmp with hnone | hcfg
  · rw [hnone] at hm; cases hm
  · refine @shouldContinue_true_lt T cfg s r ?_ m (by rw [hcfg]; exact hm) hm0
    rw [hsc]

/-- `performInfiniteScroll` maintains the loop invariant and never decreases
the page counter. -/
theorem performInfiniteScroll_master {T : Type} (env : PageEnv T)
    (opts : ExtractOptions T) (cfg : CommonConfig T) (ms : Option Nat)
    (mp : Option Nat) (hmp : mp = none ∨ cfg.maxPages = mp) :
    ∀ (fuel sc lic : Nat) (c : Counters) (s : PaginationState)
      (r : PaginationResult T), LoopInv opts mp s r →
      LoopInv opts mp
          (performInfiniteScroll env opts cfg ms fuel sc lic c s r).state
          (performInfiniteScroll env opts cfg ms fuel sc lic c s r).result ∧
      s.currentPage ≤
        (performInfiniteScroll env opts cfg ms fuel sc lic c s r).state.currentPage := by
  intro fuel
  induction fuel with
  | zero => intro sc lic c s r h; exact ⟨h, Nat.le_refl _⟩
  | succ fuel ih =>
    intro sc lic c s r h
    rcases hsc : shouldContinuePagination cfg s r with ⟨cont, r₀⟩
    have hinv₀ : LoopInv opts mp s r₀ := by
      have hq := LoopInv_shouldContinue cfg h
      rw [hsc] at hq
      exact hq
    cases cont with
    | false =>
      simp only [performInfiniteScroll, hsc]
      exact ⟨hinv₀, Nat.le_refl _⟩
    | true =>
      simp only [performInfiniteScroll, hsc]
      rcases hex : env.extractAt c.extracts with msg | newItems
      · simp only [hex]
        exact ⟨hinv₀, Nat.le_refl _⟩
      · simp only [hex]
        have hpp := processNewItems_preserve opts newItems s r₀
        have hinv₁ := LoopInv_process newItems hinv₀
        have hlt := cycle_lt_cap hmp hsc
        have hlt₁ : ∀ m, mp = some m → m ≠ 0 →
            (processNewItems newItems opts s r₀).1.currentPage < m := by
          intro m hm hm0; rw [hpp.1]; exact hlt m hm hm0
        have hmono₁ : s.currentPage ≤
            (advanceState (processNewItems newItems opts s r₀).1).currentPage := by
          show s.currentPage ≤ (processNewItems newItems opts s r₀).1.currentPage + 1
          rw [hpp.1]
          exact Nat.le_succ _
        split
        · split
          · refine ⟨LoopInv_setStop hinv₁ _ (by intro hc; cases hc), ?_⟩
            rw [hpp.1]
          · split
            · refine ⟨LoopInv_setStop hinv₁ _ (by intro hc; cases hc), ?_⟩
              rw [hpp.1]
            · have hrec := ih (sc + 1) lic
                { c with extracts := c.extracts + 1, scrolls := c.scrolls + 1 }
                (advanceState (processNewItems newItems opts s r₀).1)
                (advanceResult (processNewItems newItems opts s r₀).2)
                (LoopInv_advance hinv₁ hlt₁)
              exact ⟨hrec.1, hmono₁.trans hrec.2⟩
        · have hrec := ih 0 (processNewItems newItems opts s r₀).2.items.length
            { c with extracts := c.extracts + 1 }
            (advanceState (processNewItems newItems opts s r₀).1)
            (advanceResult (processNewItems newItems opts s r₀).2)
            (LoopInv_advance hinv₁ hlt₁)
          exact ⟨hrec.1, hmono₁.trans hrec.2⟩

/-- The `while` loop of `performLoadMoreButton` maintains the loop invariant
and never decreases the page counter. -/
theorem loadMoreLoop_master {T : Type} (env : PageEnv T)
    (opts : ExtractOptions T) (cfg : CommonConfig T) (mp : Option Nat)
    (hmp : mp = none ∨ cfg.maxPages = mp) :
    ∀ (fuel : Nat) (c : Counters) (s : PaginationState)
      (r : PaginationResult T), LoopInv opts mp s r →
      LoopInv opts mp (loadMoreLoop env opts cfg fuel c s r).state
          (loadMoreLoop env opts cfg fuel c s r).result ∧
      s.currentPage ≤ (loadMoreLoop env opts cfg fuel c s r).state.currentPage := by
  intro fuel
  induction fuel with
  | zero => intro c s r h; exact ⟨h, Nat.le_refl _⟩
  | succ fuel ih =>
    intro c s r h
    rcases hsc : shouldContinuePagination cfg s r with ⟨cont, r₀⟩
    have hinv₀ : LoopInv opts mp s r₀ := by
      have hq := LoopInv_shouldContinue cfg h
      rw [hsc] at hq
      exact hq
    cases cont with
    | false =>
      simp only [loadMoreLoop, hsc]
      exact ⟨hinv₀, Nat.le_refl _⟩
    | true =>
      simp only [loadMoreLoop, hsc]
      split
      · exact ⟨LoopInv_setStop hinv₀ _ (by intro hc; cases hc), Nat.le_refl _⟩
      · rcases hex : env.extractAt c.extracts with msg | newItems
        · simp only [hex]
          exact ⟨hinv₀, Nat.le_refl _⟩
        · simp only [hex]
          have hpp := processNewItems_preserve opts newItems s r₀
          have hinv₁ := LoopInv_process newItems hinv₀
          have hlt₁ : ∀ m, mp = some m → m ≠ 0 →
              (processNewItems newItems opts s r₀).1.currentPage < m := by
            intro m hm hm0
            rw [hpp.1]
            exact cycle_lt_cap hmp hsc m hm hm0
          have hrec := ih { c with clicks := c.clicks + 1, extracts := c.extracts + 1 }
            (advanceState (processNewItems newItems opts s r₀).1)
            (advanceResult (processNewItems newItems opts s r₀).2)
            (LoopInv_advance hinv₁ hlt₁)
          have hmono₁ : s.currentPage ≤
              (advanceState (processNewItems newItems opts s r₀).1).currentPage := by
            show s.currentPage ≤ (processNewItems newItems opts s r₀).1.currentPage + 1
            rw [hpp.1]
            exact Nat.le_succ _
          exact ⟨hrec.1, hmono₁.trans hrec.2⟩

/-- `performLoadMoreButton` maintains the loop invariant and never decreases
the page counter. -/
theorem performLoadMoreButton_master {T : Type} (env : PageEnv T)
    (opts : ExtractOptions T) (cfg : CommonConfig T) (mp : Option Nat)
    (hmp : mp = none ∨ cfg.maxPages = mp) (fuel : Nat) (c : Counters)
    (s : PaginationState) (r : PaginationResult T) (h : LoopInv opts mp s r) :
    LoopInv opts mp (performLoadMoreButton env opts cfg fuel c s r).state
        (performLoadMoreButton env opts cfg fuel c s r).result ∧
    s.currentPage ≤ (performLoadMoreButton env opts cfg fuel c s r).state.currentPage := by
  unfold performLoadMoreButton
  rcases hex : env.extractAt c.extracts with msg | newItems
  · exact ⟨h, Nat.le_refl _⟩
  · have hpp := processNewItems_preserve opts newItems s r
    have hinv₁ := LoopInv_process newItems h
    have hrec := loadMoreLoop_master env opts cfg mp hmp fuel
      { c with extracts := c.extracts + 1 }
      (processNewItems newItems opts s r).1 (processNewItems newItems opts s r).2
      hinv₁
    refine ⟨hrec.1, ?_⟩
    have : s.currentPage ≤ (processNewItems newItems opts s r).1.currentPage := by
      rw [hpp.1]
    exact this.trans hrec.2

/-- `performNumberedPagination` maintains the loop invariant and never
decreases the page counter. -/
theorem performNumberedPagination_master {T : Type} (env : PageEnv T)
    (opts : ExtractOptions T) (cfg : CommonConfig T) (mp : Option Nat)
    (hmp : mp = none ∨ cfg.maxPages = mp) :
    ∀ (fuel : Nat) (c : Counters) (s : PaginationState)
      (r : PaginationResult T), LoopInv opts mp s r →
      LoopInv opts mp (performNumberedPagination env opts cfg fuel c s r).state
          (performNumberedPagination env opts cfg fuel c s r).result ∧
      s.currentPage ≤ (performNumberedPagination env opts cfg fuel c s r).state.currentPage := by
  intro fuel
  induction fuel with
  | zero => intro c s r h; exact ⟨h, Nat.le_refl _⟩
  | succ fuel ih =>
    intro c s r h
    rcases hsc : shouldContinuePagination cfg s r with ⟨cont, r₀⟩
    have hinv₀ : LoopInv opts mp s r₀ := by
      have hq := LoopInv_shouldContinue cfg h
      rw [hsc] at hq
      exact hq
    cases cont with
    | false =>
      simp only [performNumberedPagination, hsc]
      exact ⟨hinv₀, Nat.le_refl _⟩
    | true =>
      simp only [performNumberedPagination, hsc]
      rcases hex : env.extractAt c.extracts with msg | newItems
      · simp only [hex]
        exact ⟨hinv₀, Nat.le_refl _⟩
      · simp only [hex]
        have hpp := processNewItems_preserve opts newItems s r₀
        have hinv₁ := LoopInv_process newItems hinv₀
        have hlt₁ : ∀ m, mp = some m → m ≠ 0 →
            (processNewItems newItems opts s r₀).1.currentPage < m := by
          intro m hm hm0
          rw [hpp.1]
          exact cycle_lt_cap hmp hsc m hm hm0
        have hmono₀ : s.currentPage ≤
            (processNewItems newItems opts s r₀).1.currentPage := by
          rw [hpp.1]
        split
        · exact ⟨LoopInv_setStop hinv₁ _ (by intro hc; cases hc), hmono₀⟩
        · have hrec := ih
            { c with extracts := c.extracts + 1, navigates := c.navigates + 1 }
            (advanceState (processNewItems newItems opts s r₀).1)
            (advanceResult (processNewItems newItems opts s r₀).2)
            (LoopInv_advance hinv₁ hlt₁)
          have hmono₁ : s.currentPage ≤
              (advanceState (processNewItems newItems opts s r₀).1).currentPage := by
            show s.currentPage ≤ (processNewItems newItems opts s r₀).1.currentPage + 1
            rw [hpp.1]
            exact Nat.le_succ _
          exact ⟨hrec.1, hmono₁.trans hrec.2⟩

/-- `cursorLoop` maintains the loop invariant and never decreases the page
counter. -/
theorem cursorLoop_master {T : Type} (env : PageEnv T)
    (opts : ExtractOptions T) (cfg : CommonConfig T) (mp : Option Nat)
    (hmp : mp = none ∨ cfg.maxPages = mp) :
    ∀ (fuel : Nat) (cur : Option String) (c : Counters) (s : PaginationState)
      (r : PaginationResult T), LoopInv opts mp s r →
      LoopInv opts mp (cursorLoop env opts cfg fuel cur c s r).state
          (cursorLoop env opts cfg fuel cur c s r).result ∧
      s.currentPage ≤ (cursorLoop env opts cfg fuel cur c s r).state.currentPage := by
  intro fuel
  induction fuel with
  | zero => intro cur c s r h; exact ⟨h, Nat.le_refl _⟩
  | succ fuel ih =>
    intro cur c s r h
    rcases hsc : shouldContinuePagination cfg s r with ⟨cont, r₀⟩
    have hinv₀ : LoopInv opts mp s r₀ := by
      have hq := LoopInv_shouldContinue cfg h
      rw [hsc] at hq
      exact hq
    cases cont with
    | false =>
      simp only [cursorLoop, hsc]
      exact ⟨hinv₀, Nat.le_refl _⟩
    | true =>
      simp only [cursorLoop, hsc]
      rcases hex : env.extractAt c.extracts with msg | newItems
      · simp only [hex]
        exact ⟨hinv₀, Nat.le_refl _⟩
      · simp only [hex]
        have hpp := processNewItems_preserve opts newItems s r₀
        have hinv₁ := LoopInv_process newItems hinv₀
        have hlt₁ : ∀ m, mp = some m → m ≠ 0 →
            (processNewItems newItems opts s r₀).1.currentPage < m := by
          intro m hm hm0
          rw [hpp.1]
          exact cycle_lt_cap hmp hsc m hm hm0
        have hmono₀ : s.currentPage ≤
            (processNewItems newItems opts s r₀).1.currentPage := by
          rw [hpp.1]
        rcases hcur : env.extractCursorAt c.cursorExtracts with msg | nextCursor
        · simp only [hcur]
          exact ⟨hinv₁, hmono₀⟩
        · simp only [hcur]
          split
          · exact ⟨LoopInv_setStop hinv₁ _ (by intro hc; cases hc), hmono₀⟩
          · have hinv₂ := LoopInv_setCursor hinv₁ nextCursor
            rcases hnav : env.navigateCursorAt c.cursorNavigates with msg | u
            · simp only [hnav]
              exact ⟨hinv₂, hmono₀⟩
            · simp only [hnav]
              have hlt₂ : ∀ m, mp = some m → m ≠ 0 →
                  ({ (processNewItems newItems opts s r₀).1 with
                      lastCursor := nextCursor } : PaginationState).currentPage < m :=
                hlt₁
              have hrec := ih nextCursor
                { c with extracts := c.extracts + 1,
                         cursorExtracts := c.cursorExtracts + 1,
                         cursorNavigates := c.cursorNavigates + 1 }
                (advanceState { (processNewItems newItems opts s r₀).1 with
                    lastCursor := nextCursor })
                (advanceResult { (processNewItems newItems opts s r₀).2 with
                    metadata := { (processNewItems newItems opts s r₀).2.metadata with
                      lastCursor := nextCursor } })
                (LoopInv_advance hinv₂ hlt₂)
              refine ⟨hrec.1, ?_⟩
              have hmono₁ : s.currentPage ≤
                  (advanceState { (processNewItems newItems opts s r₀).1 with
                      lastCursor := nextCursor }).currentPage := by
                show s.currentPage ≤
                  (processNewItems newItems opts s r₀).1.currentPage + 1
                rw [hpp.1]
                exact Nat.le_succ _
              exact hmono₁.trans hrec.2

/-- Uniform `maxPages` over every node of a (possibly hybrid) strategy. -/
def AllMaxPages {T : Type} (mp : Option Nat) : PagStrategy T → Prop
  | PagStrategy.infiniteScroll cfg _ => cfg.maxPages = mp
  | PagStrategy.loadMoreButton cfg => cfg.maxPages = mp
  | PagStrategy.numberedPagination cfg => cfg.maxPages = mp
  | PagStrategy.cursorBased cfg _ => cfg.maxPages = mp
  | PagStrategy.timeBased cfg => cfg.maxPages = mp
  | PagStrategy.hybrid cfg p f =>
      cfg.maxPages = mp ∧ AllMaxPages mp p ∧ AllMaxPages mp f

/-- Either no cap is being tracked (`mp = none`) or every node of the
strategy carries the tracked `maxPages` value. -/
def CapHyp {T : Type} (mp : Option Nat) (strat : PagStrategy T) : Prop :=
  mp = none ∨ AllMaxPages mp strat

/-- `performPagination` (including hybrid re-dispatch) maintains the loop
invariant and never decreases the page counter. -/
theorem performPagination_master {T : Type} (env : PageEnv T)
    (opts : ExtractOptions T) (mp : Option Nat) :
    ∀ (strat : PagStrategy T) (fuel : Nat) (c : Counters)
      (s : PaginationState) (r : PaginationResult T),
      CapHyp mp strat → LoopInv opts mp s r →
      LoopInv opts mp (performPagination env opts fuel strat c s r).state
          (performPagination env opts fuel strat c s r).result ∧
      s.currentPage ≤ (performPagination env opts fuel strat c s r).state.currentPage := by
  intro strat
  induction strat with
  | infiniteScroll cfg ms =>
    intro fuel c s r hcap h
    exact performInfiniteScroll_master env opts cfg ms mp hcap fuel 0 0 c s r h
  | loadMoreButton cfg =>
    intro fuel c s r hcap h
    exact performLoadMoreButton_master env opts cfg mp hcap fuel c s r h
  | numberedPagination cfg =>
    intro fuel c s r hcap h
    exact performNumberedPagination_master env opts cfg mp hcap fuel c s r h
  | cursorBased cfg cur =>
    intro fuel c s r hcap h
    exact cursorLoop_master env opts cfg mp hcap fuel cur c s r h
  | timeBased cfg =>
    intro fuel c s r _ h
    exact ⟨h, Nat.le_refl _⟩
  | hybrid cfg p f ihp ihf =>
    intro fuel c s r hcap h
    have hcapP : CapHyp mp p := by
      rcases hcap with hnone | hall
      · exact Or.inl hnone
      · exact Or.inr hall.2.1
    have hcapF : CapHyp mp f := by
      rcases hcap with hnone | hall
      · exact Or.inl hnone
      · exact Or.inr hall.2.2
    have hp := ihp fuel c s r hcapP h
    simp only [performPagination]
    rcases hth : (performPagination env opts fuel p c s r).thrown with _ | msg
    · simp only [hth]
      exact hp
    · simp only [hth]
      have hf := ihf fuel (performPagination env opts fuel p c s r).counters
        (performPagination env opts fuel p c s r).state
        (performPagination env opts fuel p c s r).result hcapF hp.1
      exact ⟨hf.1, hp.2.trans hf.2⟩

/-! ### Controller-level characterization -/

/-- The executor run performed by `extractWithPagination` (its `er`). -/
def runExec {T : Type} (env : PageEnv T) (fuel : Nat) (strategy : PagStrategy T)
    (opts : ExtractOptions T) : ExecResult T :=
  performPagination env opts fuel strategy counters0 (initialState env.startTime)
    (initialResult T env.startTime)

/-- The stop reason of the result handed to the caller, when there is one. -/
def stopReasonOf {T : Type} (o : RunOutput T) : Option StopReason :=
  match o.outcome with
  | Except.ok r => some r.stopReason
  | Except.error _ => none

/-- When `getPage` throws, `extractWithPagination` propagates the exception:
no result, no close. -/
theorem extractWithPagination_openFail {T : Type} (env : PageEnv T)
    (fuel : Nat) (strat : PagStrategy T) (opts : ExtractOptions T)
    (msg : String) (hopen : env.openResult = Except.error msg) :
    extractWithPagination env fuel strat opts =
      ⟨Except.error msg, false, false⟩ := by
  unfold extractWithPagination
  rw [hopen]

/-- When the executor returns normally, the controller returns the stamped
result and the `finally` block closes the page and context. -/
theorem extractWithPagination_ok_none {T : Type} (env : PageEnv T)
    (fuel : Nat) (strat : PagStrategy T) (opts : ExtractOptions T)
    (hopen : env.openResult = Except.ok ())
    (hth : (runExec env fuel strat opts).thrown = none) :
    extractWithPagination env fuel strat opts =
      ⟨Except.ok (stampSuccess env.endClock env.startTime
          (runExec env fuel strat opts).result), true, true⟩ := by
  unfold runExec at hth
  unfold extractWithPagination runExec
  rw [hopen]
  dsimp only
  rw [hth]

/-- When the executor throws, the controller catches, records the message and
returns the partial result; the `finally` block still closes the page and
context. -/
theorem extractWithPagination_ok_some {T : Type} (env : PageEnv T)
    (fuel : Nat) (strat : PagStrategy T) (opts : ExtractOptions T)
    (msg : String) (hopen : env.openResult = Except.ok ())
    (hth : (runExec env fuel strat opts).thrown = some msg) :
    extractWithPagination env fuel strat opts =
      ⟨Except.ok (stampFailure msg (runExec env fuel strat opts).result),
        true, true⟩ := by
  unfold runExec at hth
  unfold extractWithPagination runExec
  rw [hopen]
  dsimp only
  rw [hth]

/-! ### The `stopCondition` callback is dead configuration -/

/-- Replace the `stopCondition` field of a common config. -/
def setStopConditionCfg {T : Type} (f : Option (List T → Nat → Bool))
    (cfg : CommonConfig T) : CommonConfig T :=
  { cfg with stopCondition := f }

/-- Replace the `stopCondition` field on every node of a strategy. -/
def setStopCondition {T : Type} (f : Option (List T → Nat → Bool)) :
    PagStrategy T → PagStrategy T
  | PagStrategy.infiniteScroll cfg ms =>
      PagStrategy.infiniteScroll (setStopConditionCfg f cfg) ms
  | PagStrategy.loadMoreButton cfg =>
      PagStrategy.loadMoreButton (setStopConditionCfg f cfg)
  | PagStrategy.numberedPagination cfg =>
      PagStrategy.numberedPagination (setStopConditionCfg f cfg)
  | PagStrategy.cursorBased cfg cur =>
      PagStrategy.cursorBased (setStopConditionCfg f cfg) cur
  | PagStrategy.timeBased cfg =>
      PagStrategy.timeBased (setStopConditionCfg f cfg)
  | PagStrategy.hybrid cfg p fb =>
      PagStrategy.hybrid (setStopConditionCfg f cfg)
        (setStopCondition f p) (setStopCondition f fb)

/-- `shouldContinuePagination` reads only the caps, never `stopCondition`. -/
theorem shouldContinue_setSC {T : Type} (f : Option (List T → Nat → Bool))
    (cfg : CommonConfig T) (s : PaginationState) (r : PaginationResult T) :
    shouldContinuePagination (setStopConditionCfg f cfg) s r =
      shouldContinuePagination cfg s r := rfl

/-- `performInfiniteScroll` is unaffected by the `stopCondition` field. -/
theorem performInfiniteScroll_setSC {T : Type} (env : PageEnv T)
    (opts : ExtractOptions T) (f : Option (List T → Nat → Bool))
    (cfg : CommonConfig T) (ms : Option Nat) :
    ∀ (fuel sc lic : Nat) (c : Counters) (s : PaginationState)
      (r : PaginationResult T),
      performInfiniteScroll env opts (setStopConditionCfg f cfg) ms fuel sc lic c s r =
        performInfiniteScroll env opts cfg ms fuel sc lic c s r := by
  intro fuel
  induction fuel with
  | zero => intro sc lic c s r; rfl
  | succ fuel ih =>
    intro sc lic c s r
    simp only [performInfiniteScroll, shouldContinue_setSC]
    rcases shouldContinuePagination cfg s r with ⟨cont, r₀⟩
    cases cont
    · rfl
    · cases env.extractAt c.extracts
      · rfl
      · dsimp only
        split
        · split
          · rfl
          · split
            · rfl
            · exact ih _ _ _ _ _
        · exact ih _ _ _ _ _

/-- The load-more loop is unaffected by the `stopCondition` field. -/
theorem loadMoreLoop_setSC {T : Type} (env : PageEnv T)
    (opts : ExtractOptions T) (f : Option (List T → Nat → Bool))
    (cfg : CommonConfig T) :
    ∀ (fuel : Nat) (c : Counters) (s : PaginationState)
      (r : PaginationResult T),
      loadMoreLoop env opts (setStopConditionCfg f cfg) fuel c s r =
        loadMoreLoop env opts cfg fuel c s r := by
  intro fuel
  induction fuel with
  | zero => intro c s r; rfl
  | succ fuel ih =>
    intro c s r
    simp only [loadMoreLoop, shouldContinue_setSC]
    rcases shouldContinuePagination cfg s r with ⟨cont, r₀⟩
    cases cont
    · rfl
    · dsimp only
      split
      · rfl
      · cases env.extractAt c.extracts
        · rfl
        · exact ih _ _ _

/-- `performLoadMoreButton` is unaffected by the `stopCondition` field. -/
theorem performLoadMoreButton_setSC {T : Type} (env : PageEnv T)
    (opts : ExtractOptions T) (f : Option (List T → Nat → Bool))
    (cfg : CommonConfig T) (fuel : Nat) (c : Counters) (s : PaginationState)
    (r : PaginationResult T) :
    performLoadMoreButton env opts (setStopConditionCfg f cfg) fuel c s r =
      performLoadMoreButton env opts cfg fuel c s r := by
  unfold performLoadMoreButton
  cases env.extractAt c.extracts
  · rfl
  · exact loadMoreLoop_setSC env opts f cfg fuel _ _ _

/-- `performNumberedPagination` is unaffected by the `stopCondition` field. -/
theorem performNumberedPagination_setSC {T : Type} (env : PageEnv T)
    (opts : ExtractOptions T) (f : Option (List T → Nat → Bool))
    (cfg : CommonConfig T) :
    ∀ (fuel : Nat) (c : Counters) (s : PaginationState)
      (r : PaginationResult T),
      performNumberedPagination env opts (setStopConditionCfg f cfg) fuel c s r =
        performNumberedPagination env opts cfg fuel c s r := by
  intro fuel
  induction fuel with
  | zero => intro c s r; rfl
  | succ fuel ih =>
    intro c s r
    simp only [performNumberedPagination, shouldContinue_setSC]
    rcases shouldContinuePagination cfg s r with ⟨cont, r₀⟩
    cases cont
    · rfl
    · cases env.extractAt c.extracts
      · rfl
      · dsimp only
        split
        · rfl
        · exact ih _ _ _

/-- The cursor loop is unaffected by the `stopCondition` field. -/
theorem cursorLoop_setSC {T : Type} (env : PageEnv T)
    (opts : ExtractOptions T) (f : Option (List T → Nat → Bool))
    (cfg : CommonConfig T) :
    ∀ (fuel : Nat) (cur : Option String) (c : Counters)
      (s : PaginationState) (r : PaginationResult T),
      cursorLoop env opts (setStopConditionCfg f cfg) fuel cur c s r =
        cursorLoop env opts cfg fuel cur c s r := by
  intro fuel
  induction fuel with
  | zero => intro cur c s r; rfl
  | succ fuel ih =>
    intro cur c s r
    simp only [cursorLoop, shouldContinue_setSC]
    rcases shouldContinuePagination cfg s r with ⟨cont, r₀⟩
    cases cont
    · rfl
    · cases env.extractAt c.extracts
      · rfl
      · dsimp only
        cases env.extractCursorAt c.cursorExtracts
        · rfl
        · dsimp only
          split
          · rfl
          · cases env.navigateCursorAt c.cursorNavigates
            · rfl
            · exact ih _ _ _ _

/-- `performPagination` (hence the whole engine) is unaffected by the
`stopCondition` field on any node. -/
theorem performPagination_setSC {T : Type} (env : PageEnv T)
    (opts : ExtractOptions T) (f : Option (List T → Nat → Bool)) :
    ∀ (strat : PagStrategy T) (fuel : Nat) (c : Counters)
      (s : PaginationState) (r : PaginationResult T),
      performPagination env opts fuel (setStopCondition f strat) c s r =
        performPagination env opts fuel strat c s r := by
  intro strat
  induction strat with
  | infiniteScroll cfg ms =>
    intro fuel c s r
    exact performInfiniteScroll_setSC env opts f cfg ms fuel 0 0 c s r
  | loadMoreButton cfg =>
    intro fuel c s r
    exact performLoadMoreButton_setSC env opts f cfg fuel c s r
  | numberedPagination cfg =>
    intro fuel c s r
    exact performNumberedPagination_setSC env opts f cfg fuel c s r
  | cursorBased cfg cur =>
    intro fuel c s r
    exact cursorLoop_setSC env opts f cfg fuel cur c s r
  | timeBased cfg =>
    intro fuel c s r
    rfl
  | hybrid cfg p fb ihp ihf =>
    intro fuel c s r
    simp only [performPagination, setStopCondition]
    rw [ihp fuel c s r]
    cases (performPagination env opts fuel p c s r).thrown
    · rfl
    · dsimp only
      rw [ihf]

/-! ### Concrete runs used by counterexamples and witnesses -/

/-- A benign environment template for concrete runs. -/
def baseEnv (T : Type) : PageEnv T :=
  { openResult := Except.ok ()
    startTime := 100
    endClock := 100
    extractAt := fun _ => Except.ok []
    scrollAt := fun _ => Except.ok true
    clickAt := fun _ => Except.ok false
    navigateAt := fun _ => Except.ok false
    extractCursorAt := fun _ => Except.ok none
    navigateCursorAt := fun _ => Except.ok () }

/-- A config template with no caps and no callbacks. -/
def baseCfg (T : Type) : CommonConfig T :=
  { maxPages := none, maxItems := none, delay := none, verbose := false,
    stopCondition := none }

/-- Dedup disabled, duplicates not included. -/
def optsNone (T : Type) : ExtractOptions T :=
  { isDuplicate := none, includeDuplicates := false }

/-! ### C1 -/

/-- Items come in batches of three while `maxItems = 5`. -/
def envC1 : PageEnv Nat :=
  { baseEnv Nat with
    endClock := 104
    extractAt := fun n =>
      if n = 0 then Except.ok [0, 1, 2]
      else if n = 1 then Except.ok [3, 4, 5]
      else Except.ok [] }

def cfgC1 : CommonConfig Nat := { baseCfg Nat with maxItems := some 5 }

def stratC1 : PagStrategy Nat := PagStrategy.infiniteScroll cfgC1 none

/-- C1 is falsified as stated: with `maxItems = 5` and three fresh items per
cycle, the run returns 6 items — `processNewItems` appends whole batches and
`shouldContinuePagination` checks the cap only between cycles, so
`result.items.length` exceeds `maxItems`. -/
theorem C1_counterexample :
    cfgC1.maxItems = some 5 ∧
    (extractWithPagination envC1 10 stratC1 (optsNone Nat)).outcome.map
        (fun r => r.items.length) = Except.ok 6 ∧
    ¬ (6 : Nat) ≤ 5 :=
  ⟨rfl, rfl, by omega⟩

/-- C1 (amended): `result.pagesProcessed` never exceeds `maxPages` when that
cap is set to a nonzero value on every node of the strategy; the `maxItems`
cap only stops the start of further cycles, so `result.items.length` may
overshoot it by up to one batch. -/
theorem C1_amended_pages_cap {T : Type} (env : PageEnv T) (fuel : Nat)
    (strat : PagStrategy T) (opts : ExtractOptions T) (m : Nat)
    (r' : PaginationResult T) (hall : AllMaxPages (some m) strat)
    (hm : m ≠ 0)
    (hout : (extractWithPagination env fuel strat opts).outcome = Except.ok r') :
    r'.pagesProcessed ≤ m := by
  have hres : LoopInv opts (some m) (runExec env fuel strat opts).state
      (runExec env fuel strat opts).result :=
    (performPagination_master env opts (some m) strat fuel counters0
      (initialState env.startTime) (initialResult T env.startTime)
      (Or.inr hall) (initial_LoopInv opts (some m) env.startTime)).1
  have hle : (runExec env fuel strat opts).result.pagesProcessed ≤ m := by
    rw [hres.pages_eq]
    exact hres.cap m rfl hm
  rcases hopen : env.openResult with msg | u
  · rw [extractWithPagination_openFail env fuel strat opts msg hopen] at hout
    exact absurd hout (by simp)
  · rcases hth : (runExec env fuel strat opts).thrown with _ | msg
    · rw [extractWithPagination_ok_none env fuel strat opts hopen hth] at hout
      rw [show (⟨Except.ok (stampSuccess env.endClock env.startTime
          (runExec env fuel strat opts).result), true, true⟩ :
          RunOutput T).outcome = Except.ok (stampSuccess env.endClock
          env.startTime (runExec env fuel strat opts).result) from rfl,
        Except.ok.injEq] at hout
      subst hout
      exact hle
    · rw [extractWithPagination_ok_some env fuel strat opts msg hopen hth] at hout
      rw [show (⟨Except.ok (stampFailure msg
          (runExec env fuel strat opts).result), true, true⟩ :
          RunOutput T).outcome = Except.ok (stampFailure msg
          (runExec env fuel strat opts).result) from rfl,
        Except.ok.injEq] at hout
      subst hout
      exact hle

/-- A two-page run capped by `maxPages = 2`. -/
def envC1w : PageEnv Nat :=
  { baseEnv Nat with extractAt := fun n => Except.ok [n] }

def stratC1w : PagStrategy Nat :=
  PagStrategy.infiniteScroll { baseCfg Nat with maxPages := some 2 } none

/-- The result of the concrete capped run (two pages, then `maxPages`). -/
def rC1w : PaginationResult Nat :=
  stampSuccess 100 100 (runExec envC1w 10 stratC1w (optsNone Nat)).result

/-- Witness for the amended C1 at a concrete capped run: the run processes
`[0, 1]` over two pages and stops with `pagesProcessed = 2 ≤ maxPages`. -/
theorem C1_witness :
    AllMaxPages (some 2) stratC1w ∧ (2 : Nat) ≠ 0 ∧ rC1w.pagesProcessed ≤ 2 :=
  ⟨rfl, by omega,
    C1_amended_pages_cap envC1w 10 stratC1w (optsNone Nat) 2 rC1w rfl
      (by omega) rfl⟩

/-! ### C2 -/

/-- A run that stops before completing any cycle (`pagesProcessed = 0`)
after 7 clock ticks. -/
def envC2 : PageEnv Nat :=
  { baseEnv Nat with endClock := 107, scrollAt := fun _ => Except.ok false }

def stratC2 : PagStrategy Nat := PagStrategy.infiniteScroll (baseCfg Nat) none

/-- C2 is falsified as stated: on a run with `pagesProcessed = 0` and
`totalTime = 7`, the source's ternary yields `averagePageTime = 0`, not
`totalTime / max(pagesProcessed, 1) = 7`. -/
theorem C2_counterexample :
    (extractWithPagination envC2 10 stratC2 (optsNone Nat)).outcome.map
        (fun r => (r.metadata.averagePageTime, r.totalTime, r.pagesProcessed))
      = Except.ok (0, 7, 0) ∧
    (7 : ℚ) / ((max 0 1 : Nat) : ℚ) ≠ (0 : ℚ) :=
  ⟨rfl, by norm_num⟩

/-- C2 (amended): every returned result satisfies
`averagePageTime = if pagesProcessed > 0 then totalTime / pagesProcessed
else 0`; in particular when `pagesProcessed = 0` the average is `0`, not
`totalTime` (and on the caught-error path all three fields are still their
zero initialisations). -/
theorem C2_amended_average {T : Type} (env : PageEnv T) (fuel : Nat)
    (strat : PagStrategy T) (opts : ExtractOptions T)
    (r' : PaginationResult T)
    (hout : (extractWithPagination env fuel strat opts).outcome = Except.ok r') :
    r'.metadata.averagePageTime =
      if 0 < r'.pagesProcessed
      then (r'.totalTime : ℚ) / (r'.pagesProcessed : ℚ) else 0 := by
  have hres : LoopInv opts none (runExec env fuel strat opts).state
      (runExec env fuel strat opts).result :=
    (performPagination_master env opts none strat fuel counters0
      (initialState env.startTime) (initialResult T env.startTime)
      (Or.inl rfl) (initial_LoopInv opts none env.startTime)).1
  rcases hopen : env.openResult with msg | u
  · rw [extractWithPagination_openFail env fuel strat opts msg hopen] at hout
    exact absurd hout (by simp)
  · rcases hth : (runExec env fuel strat opts).thrown with _ | msg
    · rw [extractWithPagination_ok_none env fuel strat opts hopen hth] at hout
      rw [show (⟨Except.ok (stampSuccess env.endClock env.startTime
          (runExec env fuel strat opts).result), true, true⟩ :
          RunOutput T).outcome = Except.ok (stampSuccess env.endClock
          env.startTime (runExec env fuel strat opts).result) from rfl,
        Except.ok.injEq] at hout
      subst hout
      rfl
    · rw [extractWithPagination_ok_some env fuel strat opts msg hopen hth] at hout
      rw [show (⟨Except.ok (stampFailure msg
          (runExec env fuel strat opts).result), true, true⟩ :
          RunOutput T).outcome = Except.ok (stampFailure msg
          (runExec env fuel strat opts).result) from rfl,
        Except.ok.injEq] at hout
      subst hout
      show (runExec env fuel strat opts).result.metadata.averagePageTime =
        if 0 < (runExec env fuel strat opts).result.pagesProcessed
        then ((runExec env fuel strat opts).result.totalTime : ℚ) /
          ((runExec env fuel strat opts).result.pagesProcessed : ℚ) else 0
      rw [hres.avg, hres.total_time]
      split
      · simp
      · rfl

/-- A one-page successful run taking 6 clock ticks. -/
def envC2w : PageEnv Nat :=
  { baseEnv Nat with
    endClock := 106
    extractAt := fun n => if n = 0 then Except.ok [1] else Except.ok []
    scrollAt := fun _ => Except.ok false }

/-- The result of the concrete one-page run (items `[1]`, 6 ticks, so
`totalTime = 6`, `pagesProcessed = 1`). -/
def rC2w : PaginationResult Nat :=
  stampSuccess 106 100 (runExec envC2w 10 stratC2 (optsNone Nat)).result

/-- Witness for the amended C2 at a concrete one-page run. -/
theorem C2_witness :
    rC2w.metadata.averagePageTime =
      if 0 < rC2w.pagesProcessed
      then (rC2w.totalTime : ℚ) / (rC2w.pagesProcessed : ℚ) else 0 :=
  C2_amended_average envC2w 10 stratC2 (optsNone Nat) rC2w rfl

/-! ### C3 -/

/-- The document open fails. -/
def envC3 : PageEnv Nat :=
  { baseEnv Nat with openResult := Except.error "Failed to navigate to page" }

/-- C3 is falsified as stated: `getPage` is awaited before the `try` block
(line 609), so an open failure propagates to the caller — the run rejects,
and no error-state `PaginationResult` (with `completed = false`,
`errors.length = 1`, `items.length = 0`) is produced. -/
theorem C3_counterexample :
    (extractWithPagination envC3 5 stratC2 (optsNone Nat)).outcome
      = Except.error "Failed to navigate to page" ∧
    stopReasonOf (extractWithPagination envC3 5 stratC2 (optsNone Nat)) = none :=
  ⟨rfl, rfl⟩

/-- C3 (amended): if opening the document throws, `extractWithPagination`
propagates that exception to the caller unchanged and returns no
`PaginationResult` at all. -/
theorem C3_amended_open_propagates {T : Type} (env : PageEnv T) (fuel : Nat)
    (strat : PagStrategy T) (opts : ExtractOptions T) (msg : String)
    (hopen : env.openResult = Except.error msg) :
    (extractWithPagination env fuel strat opts).outcome = Except.error msg := by
  rw [extractWithPagination_openFail env fuel strat opts msg hopen]

/-- Witness for the amended C3 at the failing-open run. -/
theorem C3_witness :
    (extractWithPagination envC3 5 stratC2 (optsNone Nat)).outcome
      = Except.error "Failed to navigate to page" :=
  C3_amended_open_propagates envC3 5 stratC2 (optsNone Nat)
    "Failed to navigate to page" rfl

/-! ### C4 -/

/-- The first scroll attempt throws inside `performScroll`. -/
def envC4x : PageEnv Nat :=
  { baseEnv Nat with
    endClock := 107
    scrollAt := fun _ => Except.error "scroll blew up" }

def stratC4x : PagStrategy Nat := PagStrategy.infiniteScroll (baseCfg Nat) none

/-- C4 is falsified as stated for three of its five enumerated action kinds:
a thrown scroll (likewise click / next-page navigation) is caught inside
`performScroll` (lines 1055-1060; `clickLoadMoreButton` 1081-1083,
`navigateToNextPage` 1107-1109) and converted to `false`, so the run ends on
the success path with `stopReason = 'endReached'`, `completed = true` and no
message appended to `result.errors` — not with `stopReason = 'error'` and
`completed = false` as the claim asserts. -/
theorem C4_counterexample :
    envC4x.scrollAt 0 = Except.error "scroll blew up" ∧
    (extractWithPagination envC4x 10 stratC4x (optsNone Nat)).outcome.map
        (fun r => (r.stopReason, r.completed, r.errors))
      = Except.ok (StopReason.endReached, true, []) ∧
    StopReason.endReached ≠ StopReason.error :=
  ⟨rfl, rfl, by decide⟩

/-- C4 (amended): scroll, click and next-page-navigation throws are caught
inside their owning helpers and read as mere failure (`endReached` path, no
recorded error).  When a per-cycle action's exception does escape the
executor after the document opened (`extractItems`, `extractCursor`,
`navigateWithCursor` throwing, or the time-based executor's own throw), the
controller's catch block appends the message to `result.errors`, sets
`stopReason = 'error'`, leaves `completed = false`, and returns (rather than
rethrows) the result still carrying the items accumulated before the
failure. -/
theorem C4_cycle_error_caught {T : Type} (env : PageEnv T) (fuel : Nat)
    (strat : PagStrategy T) (opts : ExtractOptions T) (msg : String)
    (hopen : env.openResult = Except.ok ())
    (hth : (runExec env fuel strat opts).thrown = some msg) :
    (extractWithPagination env fuel strat opts).outcome =
      Except.ok { (runExec env fuel strat opts).result with
        errors := (runExec env fuel strat opts).result.errors ++ [msg]
        stopReason := StopReason.error } ∧
    (runExec env fuel strat opts).result.completed = false := by
  constructor
  · rw [extractWithPagination_ok_some env fuel strat opts msg hopen hth]
    rfl
  · exact (performPagination_master env opts none strat fuel counters0
      (initialState env.startTime) (initialResult T env.startTime)
      (Or.inl rfl) (initial_LoopInv opts none env.startTime)).1.not_completed

/-- Extraction succeeds once with `[7, 8]`, then throws. -/
def envC4 : PageEnv Nat :=
  { baseEnv Nat with
    endClock := 107
    extractAt := fun n =>
      if n = 0 then Except.ok [7, 8] else Except.error "boom" }

def stratC4 : PagStrategy Nat := PagStrategy.infiniteScroll (baseCfg Nat) none

/-- Witness for C4: the concrete run accumulates `[7, 8]`, then the second
extraction throws `"boom"`; the caller still receives those items. -/
theorem C4_witness :
    (extractWithPagination envC4 10 stratC4 (optsNone Nat)).outcome =
      Except.ok { (runExec envC4 10 stratC4 (optsNone Nat)).result with
        errors := (runExec envC4 10 stratC4 (optsNone Nat)).result.errors ++ ["boom"]
        stopReason := StopReason.error } ∧
    (runExec envC4 10 stratC4 (optsNone Nat)).result.completed = false :=
  C4_cycle_error_caught envC4 10 stratC4 (optsNone Nat) "boom" rfl rfl

/-! ### C5 -/

/-- Extraction throws immediately; the run still takes 7 clock ticks. -/
def envC5 : PageEnv Nat :=
  { baseEnv Nat with
    endClock := 107
    extractAt := fun _ => Except.error "kaboom" }

def stratC5 : PagStrategy Nat := PagStrategy.infiniteScroll (baseCfg Nat) none

/-- C5 is falsified as stated: the stamping of `totalTime`,
`metadata.endTime` and `metadata.averagePageTime` (lines 618-622) sits on
the success path only, so on the caught-error path those fields keep their
zero initialisations even though 7 ticks elapsed. -/
theorem C5_counterexample :
    (extractWithPagination envC5 10 stratC5 (optsNone Nat)).outcome.map
        (fun r => (r.totalTime, r.metadata.endTime, r.metadata.averagePageTime,
          r.completed, r.stopReason))
      = Except.ok (0, 0, 0, false, StopReason.error) ∧
    envC5.endClock - envC5.startTime = 7 ∧ (0 : Nat) ≠ 7 :=
  ⟨rfl, rfl, by omega⟩

/-- C5 (amended): the controller stamps `totalTime`, `metadata.endTime`,
`metadata.averagePageTime` and sets `completed = true` only on the success
path; on the caught-error path all of them keep their zero initialisations,
`completed` stays `false` and `stopReason` is `'error'`. -/
theorem C5_amended_stamping {T : Type} (env : PageEnv T) (fuel : Nat)
    (strat : PagStrategy T) (opts : ExtractOptions T)
    (r' : PaginationResult T) (hopen : env.openResult = Except.ok ())
    (hout : (extractWithPagination env fuel strat opts).outcome = Except.ok r') :
    (r'.completed = true →
      r'.totalTime = env.endClock - env.startTime ∧
      r'.metadata.endTime = env.endClock) ∧
    (r'.completed = false →
      r'.totalTime = 0 ∧ r'.metadata.endTime = 0 ∧
      r'.metadata.averagePageTime = 0 ∧ r'.stopReason = StopReason.error) ∧
    (r'.completed = true ↔ (runExec env fuel strat opts).thrown = none) := by
  have hres : LoopInv opts none (runExec env fuel strat opts).state
      (runExec env fuel strat opts).result :=
    (performPagination_master env opts none strat fuel counters0
      (initialState env.startTime) (initialResult T env.startTime)
      (Or.inl rfl) (initial_LoopInv opts none env.startTime)).1
  rcases hth : (runExec env fuel strat opts).thrown with _ | msg
  · rw [extractWithPagination_ok_none env fuel strat opts hopen hth] at hout
    rw [show (⟨Except.ok (stampSuccess env.endClock env.startTime
        (runExec env fuel strat opts).result), true, true⟩ :
        RunOutput T).outcome = Except.ok (stampSuccess env.endClock
        env.startTime (runExec env fuel strat opts).result) from rfl,
      Except.ok.injEq] at hout
    subst hout
    refine ⟨fun _ => ⟨rfl, rfl⟩, fun hc => ?_, ?_⟩
    · exact Bool.noConfusion hc
    · exact ⟨fun _ => rfl, fun _ => rfl⟩
  · rw [extractWithPagination_ok_some env fuel strat opts msg hopen hth] at hout
    rw [show (⟨Except.ok (stampFailure msg
        (runExec env fuel strat opts).result), true, true⟩ :
        RunOutput T).outcome = Except.ok (stampFailure msg
        (runExec env fuel strat opts).result) from rfl,
      Except.ok.injEq] at hout
    subst hout
    have hcf : (stampFailure msg (runExec env fuel strat opts).result).completed
        = false := hres.not_completed
    refine ⟨fun hc => ?_, fun _ => ?_, ?_⟩
    · rw [hcf] at hc
      exact Bool.noConfusion hc
    · exact ⟨hres.total_time, hres.end_time, hres.avg, rfl⟩
    · constructor
      · intro hc
        rw [hcf] at hc
        exact Bool.noConfusion hc
      · intro hn
        exact Option.noConfusion hn

/-- Witness for the amended C5 at the concrete throwing run. -/
theorem C5_witness :
    ((stampFailure "kaboom" (runExec envC5 10 stratC5 (optsNone Nat)).result).completed = true →
      (stampFailure "kaboom" (runExec envC5 10 stratC5 (optsNone Nat)).result).totalTime
          = envC5.endClock - envC5.startTime ∧
      (stampFailure "kaboom" (runExec envC5 10 stratC5 (optsNone Nat)).result).metadata.endTime
          = envC5.endClock) ∧
    ((stampFailure "kaboom" (runExec envC5 10 stratC5 (optsNone Nat)).result).completed = false →
      (stampFailure "kaboom" (runExec envC5 10 stratC5 (optsNone Nat)).result).totalTime = 0 ∧
      (stampFailure "kaboom" (runExec envC5 10 stratC5 (optsNone Nat)).result).metadata.endTime = 0 ∧
      (stampFailure "kaboom" (runExec envC5 10 stratC5 (optsNone Nat)).result).metadata.averagePageTime = 0 ∧
      (stampFailure "kaboom" (runExec envC5 10 stratC5 (optsNone Nat)).result).stopReason
          = StopReason.error) ∧
    ((stampFailure "kaboom" (runExec envC5 10 stratC5 (optsNone Nat)).result).completed = true ↔
      (runExec envC5 10 stratC5 (optsNone Nat)).thrown = none) :=
  C5_amended_stamping envC5 10 stratC5 (optsNone Nat)
    (stampFailure "kaboom" (runExec envC5 10 stratC5 (optsNone Nat)).result) rfl rfl

/-! ### C6 -/

/-- C6 (confirmed): with a dedup predicate induced by a symmetric pairwise
duplicate test and `includeDuplicates = false`, no two items of the returned
`result.items` are judged duplicates of each other — every candidate judged
a duplicate of the accumulated list is dropped by `processNewItems`. -/
theorem C6_no_duplicates {T : Type} (env : PageEnv T) (fuel : Nat)
    (strat : PagStrategy T) (d : T → T → Bool)
    (hsymm : ∀ a b, d a b = d b a) (r' : PaginationResult T)
    (hout : (extractWithPagination env fuel strat
        ⟨some (anyDup d), false⟩).outcome = Except.ok r') :
    r'.items.Pairwise (fun a b => d a b = false ∧ d b a = false) := by
  have hres : LoopInv (⟨some (anyDup d), false⟩ : ExtractOptions T) none
      (runExec env fuel strat ⟨some (anyDup d), false⟩).state
      (runExec env fuel strat ⟨some (anyDup d), false⟩).result :=
    (performPagination_master env ⟨some (anyDup d), false⟩ none strat fuel
      counters0 (initialState env.startTime) (initialResult T env.startTime)
      (Or.inl rfl) (initial_LoopInv _ none env.startTime)).1
  have hpw := hres.dedup d rfl rfl
  have himp : List.Pairwise (fun a b => d a b = false ∧ d b a = false)
      (runExec env fuel strat ⟨some (anyDup d), false⟩).result.items := by
    refine List.Pairwise.imp ?_ hpw
    intro a b hba
    refine ⟨?_, hba⟩
    rw [hsymm a b]
    exact hba
  rcases hopen : env.openResult with msg | u
  · rw [extractWithPagination_openFail env fuel strat _ msg hopen] at hout
    exact absurd hout (by simp)
  · rcases hth : (runExec env fuel strat ⟨some (anyDup d), false⟩).thrown
        with _ | msg
    · rw [extractWithPagination_ok_none env fuel strat _ hopen hth] at hout
      rw [show (⟨Except.ok (stampSuccess env.endClock env.startTime
          (runExec env fuel strat ⟨some (anyDup d), false⟩).result), true,
          true⟩ : RunOutput T).outcome = Except.ok (stampSuccess env.endClock
          env.startTime (runExec env fuel strat
            ⟨some (anyDup d), false⟩).result) from rfl,
        Except.ok.injEq] at hout
      subst hout
      exact himp
    · rw [extractWithPagination_ok_some env fuel strat _ msg hopen hth] at hout
      rw [show (⟨Except.ok (stampFailure msg (runExec env fuel strat
          ⟨some (anyDup d), false⟩).result), true, true⟩ :
          RunOutput T).outcome = Except.ok (stampFailure msg (runExec env
          fuel strat ⟨some (anyDup d), false⟩).result) from rfl,
        Except.ok.injEq] at hout
      subst hout
      exact himp

/-- Pairwise duplicate test used by the C6 witness. -/
def dC6 : Bool → Bool → Bool := fun a b => a == b

/-- One batch `[true, true, false]` with dedup enabled. -/
def envC6 : PageEnv Bool :=
  { openResult := Except.ok ()
    startTime := 100
    endClock := 100
    extractAt := fun n =>
      if n = 0 then Except.ok [true, true, false] else Except.ok []
    scrollAt := fun _ => Except.ok false
    clickAt := fun _ => Except.ok false
    navigateAt := fun _ => Except.ok false
    extractCursorAt := fun _ => Except.ok none
    navigateCursorAt := fun _ => Except.ok () }

def stratC6 : PagStrategy Bool := PagStrategy.infiniteScroll (baseCfg Bool) none

def rC6 : PaginationResult Bool :=
  stampSuccess 100 100
    (runExec envC6 10 stratC6 ⟨some (anyDup dC6), false⟩).result

/-- Witness for C6: the batch `[true, true, false]` dedups to
`[true, false]`, pairwise distinct under `dC6`. -/
theorem C6_witness :
    (∀ a b, dC6 a b = dC6 b a) ∧
    rC6.items.Pairwise (fun a b => dC6 a b = false ∧ dC6 b a = false) :=
  ⟨by decide, C6_no_duplicates envC6 10 stratC6 dC6 (by decide) rC6 rfl⟩

/-! ### C7 -/

/-- C7 (confirmed): from any loop state reachable in a run (characterised by
`LoopInv`), every executor only ever increments `state.currentPage`, so it is
monotonically non-decreasing, and when `maxPages` is set (nonzero, i.e. the
cap is in force under the source's truthiness test) `currentPage` never
exceeds it. -/
theorem C7_currentPage_monotone_capped {T : Type} (env : PageEnv T)
    (opts : ExtractOptions T) (fuel : Nat) (strat : PagStrategy T) (m : Nat)
    (c : Counters) (s : PaginationState) (r : PaginationResult T)
    (hall : AllMaxPages (some m) strat) (hm : m ≠ 0)
    (hinv : LoopInv opts (some m) s r) :
    s.currentPage ≤ (performPagination env opts fuel strat c s r).state.currentPage ∧
    (performPagination env opts fuel strat c s r).state.currentPage ≤ m := by
  have h := performPagination_master env opts (some m) strat fuel c s r
    (Or.inr hall) hinv
  exact ⟨h.2, h.1.cap m rfl hm⟩

/-- An uncapped item stream against `maxPages = 2`. -/
def envC7 : PageEnv Nat :=
  { baseEnv Nat with extractAt := fun n => Except.ok [n] }

def stratC7 : PagStrategy Nat :=
  PagStrategy.infiniteScroll { baseCfg Nat with maxPages := some 2 } none

/-- Witness for C7 at the canonical initial state of a concrete run. -/
theorem C7_witness :
    (initialState 100).currentPage ≤
      (performPagination envC7 (optsNone Nat) 10 stratC7 counters0
        (initialState 100) (initialResult Nat 100)).state.currentPage ∧
    (performPagination envC7 (optsNone Nat) 10 stratC7 counters0
        (initialState 100) (initialResult Nat 100)).state.currentPage ≤ 2 :=
  C7_currentPage_monotone_capped envC7 (optsNone Nat) 10 stratC7 2 counters0
    (initialState 100) (initialResult Nat 100) rfl (by omega)
    (initial_LoopInv (optsNone Nat) (some 2) 100)

/-! ### C8 -/

/-- C8 (confirmed): whenever the document open succeeds, the `finally` block
closes the page and its context on both exit paths of
`extractWithPagination` — the completed-result path and the caught-executor-
error path alike. -/
theorem C8_document_closed {T : Type} (env : PageEnv T) (fuel : Nat)
    (strat : PagStrategy T) (opts : ExtractOptions T)
    (hopen : env.openResult = Except.ok ()) :
    (extractWithPagination env fuel strat opts).pageClosed = true ∧
    (extractWithPagination env fuel strat opts).contextClosed = true := by
  rcases hth : (runExec env fuel strat opts).thrown with _ | msg
  · rw [extractWithPagination_ok_none env fuel strat opts hopen hth]
    exact ⟨rfl, rfl⟩
  · rw [extractWithPagination_ok_some env fuel strat opts msg hopen hth]
    exact ⟨rfl, rfl⟩

/-- Witness for C8 at a concrete successful open. -/
theorem C8_witness :
    (extractWithPagination envC4 10 stratC4 (optsNone Nat)).pageClosed = true ∧
    (extractWithPagination envC4 10 stratC4 (optsNone Nat)).contextClosed = true :=
  C8_document_closed envC4 10 stratC4 (optsNone Nat) rfl

/-! ### C9 -/

/-- C9 (confirmed): the engine's behaviour is bit-for-bit independent of the
configured `stopCondition` (the source's `if (config.stopCondition)` block is
empty, so the predicate is never invoked on any node of any strategy), and no
run ever returns `stopReason = 'customCondition'` even though the enumeration
declares that value. -/
theorem C9_stopCondition_never_used {T : Type} (env : PageEnv T) (fuel : Nat)
    (strat : PagStrategy T) (opts : ExtractOptions T)
    (f : Option (List T → Nat → Bool)) :
    extractWithPagination env fuel (setStopCondition f strat) opts =
      extractWithPagination env fuel strat opts ∧
    stopReasonOf (extractWithPagination env fuel strat opts) ≠
      some StopReason.customCondition := by
  constructor
  · unfold extractWithPagination
    cases env.openResult with
    | error msg => rfl
    | ok u => rw [performPagination_setSC]
  · have hres : LoopInv opts none (runExec env fuel strat opts).state
        (runExec env fuel strat opts).result :=
      (performPagination_master env opts none strat fuel counters0
        (initialState env.startTime) (initialResult T env.startTime)
        (Or.inl rfl) (initial_LoopInv opts none env.startTime)).1
    rcases hopen : env.openResult with msg | u
    · rw [extractWithPagination_openFail env fuel strat opts msg hopen]
      intro hcontra
      exact Option.noConfusion hcontra
    · rcases hth : (runExec env fuel strat opts).thrown with _ | msg
      · rw [extractWithPagination_ok_none env fuel strat opts hopen hth]
        show some (runExec env fuel strat opts).result.stopReason ≠
          some StopReason.customCondition
        intro hcontra
        rw [Option.some.injEq] at hcontra
        exact hres.stop hcontra
      · rw [extractWithPagination_ok_some env fuel strat opts msg hopen hth]
        show some StopReason.error ≠ some StopReason.customCondition
        intro hcontra
        rw [Option.some.injEq] at hcontra
        exact StopReason.noConfusion hcontra

/-! ### C10 -/

/-- C10 (confirmed): `shouldContinuePagination` tests the caps with JS
truthiness (`config.maxPages && …`), so a cap set to `0` behaves exactly
like an absent cap — in particular a zero cap never fires a `'maxPages'` or
`'maxItems'` stop, and the verdict with both caps zero is to continue rather
than to stop immediately. -/
theorem C10_zero_caps_unset {T : Type} (cfg : CommonConfig T)
    (s : PaginationState) (r : PaginationResult T) :
    shouldContinuePagination { cfg with maxPages := some 0 } s r =
      shouldContinuePagination { cfg with maxPages := none } s r ∧
    shouldContinuePagination { cfg with maxItems := some 0 } s r =
      shouldContinuePagination { cfg with maxItems := none } s r ∧
    (shouldContinuePagination { cfg with maxPages := some 0, maxItems := some 0 } s r).1 = true :=
  ⟨rfl, rfl, rfl⟩

end BrowserParser
